/-
Verification of the bookkeeping logic of the Adversarial_learning repository
(`Adversarial_learning/utils.py` and `Adversarial_learning/model.py`).

The Python code is shallowly embedded: torch tensors of rank 1 and 2 become
lists of rationals, Python runtime failures (AssertionError, IndexError, the
errors raised by `min` on an empty sequence and by `torch.cat` on mismatched
ranks) become an explicit error type, and the stochastic pieces
(`random.shuffle`, dropout masks) are passed in explicitly as parameters.
-/
import Mathlib

set_option autoImplicit false

/-- The Python exceptions that the modelled code can raise. -/
inductive PyError where
  | assertionError
  | indexError
  | valueError
  | runtimeError
deriving Repr, DecidableEq

/-- A torch tensor of rank 1 or 2, with rational entries.  Rank-1 tensors are
lists of scalars; rank-2 tensors are lists of rows. -/
inductive Tensor where
  | vec (v : List ℚ)
  | mat (m : List (List ℚ))
deriving Repr, DecidableEq

/-- `t.shape[0]` for a rank-1 or rank-2 tensor. -/
def Tensor.shape0 : Tensor → Nat
  | .vec v => v.length
  | .mat m => m.length

/-- One sample served by the generator: `(features[i], labels[i])`, extended
with `labels_2[i]` when a secondary label series is present. -/
def Sample : Type := Tensor × ℚ × Option ℤ

instance : DecidableEq Sample := by
  unfold Sample; infer_instance

instance : Repr Sample := by
  unfold Sample; infer_instance

/-- State of `utils.DataGenerator`.  `_index` is the reshuffle-able index
permutation, `n` the cursor. -/
structure DataGenerator where
  features : List Tensor
  labels : List ℚ
  n_nodes : Nat
  n_samples : Nat
  n : Nat
  _index : List Nat
  auto_reset_generator : Bool
  labels_2 : Option (List ℤ)
deriving Repr, DecidableEq

namespace DataGenerator

/-- One step of `DataGenerator._parse_features`: with `global_node` the
feature vector gets `0.5` concatenated before `unsqueeze(1)`; `torch.cat` of a
rank-2 tensor with the rank-1 tensor `[0.5]` raises a RuntimeError, and
`unsqueeze(1)` on a rank-2 tensor would leave the rank-1/2 fragment modelled
here (it is never reached by the repository's callers). -/
def parseOne (global_node : Bool) : Tensor → Except PyError Tensor
  | .vec v =>
      if global_node then
        .ok (.mat ((v ++ [1/2]).map fun a => [a]))
      else
        .ok (.mat (v.map fun a => [a]))
  | .mat _ => .error .runtimeError

/-- `DataGenerator._parse_features`: parse each feature tensor in order; the
first failure aborts the loop. -/
def _parse_features (features : List Tensor) (global_node : Bool) :
    Except PyError (List Tensor) :=
  match features with
  | [] => .ok []
  | t :: rest =>
    match parseOne global_node t with
    | .error e => .error e
    | .ok t' =>
      match _parse_features rest global_node with
      | .ok rest' => .ok (t' :: rest')
      | .error e => .error e

/-- `DataGenerator.__init__`.  The construction can fail: the two `assert`
statements raise AssertionError, `min(abs(labels))` raises on an empty label
tensor, and `_parse_features` can raise on ill-shaped input. -/
def init (features : List Tensor) (labels : List ℚ) (labels_2 : Option (List ℤ))
    (auto_reset_generator : Bool) (global_node : Bool) (pre_convolved : Bool) :
    Except PyError DataGenerator :=
  if features.length = labels.length then
    match (if pre_convolved then .ok features
           else _parse_features features global_node : Except PyError (List Tensor)) with
    | .error e => .error e
    | .ok feats =>
      match (labels.map fun l => |l|).min? with
      | none => .error .valueError
      | some m =>
        match feats.head? with
        | none => .error .indexError
        | some f0 =>
          match labels_2 with
          | none =>
            .ok { features := feats
                  labels := labels.map fun l => l + m
                  n_nodes := f0.shape0
                  n_samples := labels.length
                  n := 0
                  _index := List.range labels.length
                  auto_reset_generator := auto_reset_generator
                  labels_2 := none }
          | some l2 =>
            if l2.length = labels.length then
              .ok { features := feats
                    labels := labels.map fun l => l + m
                    n_nodes := f0.shape0
                    n_samples := labels.length
                    n := 0
                    _index := List.range labels.length
                    auto_reset_generator := auto_reset_generator
                    labels_2 := some l2 }
            else .error .assertionError
  else .error .assertionError

/-- The tuple `(features[i], labels[i])`, extended with `labels_2[i]` when
`labels_2` is present; an out-of-range index raises IndexError. -/
def sampleAt (g : DataGenerator) (i : Nat) : Except PyError Sample :=
  match g.features.get? i, g.labels.get? i with
  | some f, some l =>
    match g.labels_2 with
    | none => .ok (f, l, none)
    | some l2 =>
      match l2.get? i with
      | some v => .ok (f, l, some v)
      | none => .error .indexError
  | _, _ => .error .indexError

/-- `DataGenerator.reset_generator`. -/
def reset_generator (g : DataGenerator) : DataGenerator :=
  { g with n := 0 }

/-- `DataGenerator.next_sample` (which drives one step of `_iterate`):
increment the cursor, serve the sample at the pre-increment cursor, and when
the incremented cursor reaches `n_samples` under `auto_reset_generator`
reset it to `0`. -/
def next_sample (g : DataGenerator) : Except PyError (Sample × DataGenerator) :=
  if g.n + 1 = g.n_samples ∧ g.auto_reset_generator = true then
    match sampleAt { g with n := g.n + 1 } (g.n + 1 - 1) with
    | .ok s => .ok (s, reset_generator { g with n := g.n + 1 })
    | .error e => .error e
  else
    match sampleAt { g with n := g.n + 1 } (g.n + 1 - 1) with
    | .ok s => .ok (s, { g with n := g.n + 1 })
    | .error e => .error e

/-- `k` consecutive calls to `next_sample`, collecting the returned samples;
the first raised error aborts the run. -/
def runSamples (g : DataGenerator) : Nat → Except PyError (List Sample × DataGenerator)
  | 0 => .ok ([], g)
  | k + 1 =>
    match runSamples g k with
    | .ok (ss, g') =>
      match g'.next_sample with
      | .ok (s, g'') => .ok (ss ++ [s], g'')
      | .error e => .error e
    | .error e => .error e

end DataGenerator

/-- Insert a key/value pair into a Python dict (modelled as an ordered
association list): an existing key keeps its position and gets the new value,
a new key is appended at the end. -/
def pyDictInsert {α : Type} (k : Nat) (v : α) : List (Nat × α) → List (Nat × α)
  | [] => [(k, v)]
  | kv :: rest => if kv.1 = k then (k, v) :: rest else kv :: pyDictInsert k v rest

/-- The Python dict built from a list of key/value pairs, in insertion order. -/
def pyDict {α : Type} (pairs : List (Nat × α)) : List (Nat × α) :=
  pairs.foldl (fun d p => pyDictInsert p.1 p.2 d) []

/-- The key/value pairs `(i, xs[i])` for `i` in `idx`, evaluated left to
right; the first out-of-range access raises IndexError. -/
def pyLookups {α : Type} (idx : List Nat) (xs : List α) :
    Except PyError (List (Nat × α)) :=
  match idx with
  | [] => .ok []
  | i :: rest =>
    match xs.get? i with
    | none => .error .indexError
    | some v =>
      match pyLookups rest xs with
      | .ok ps => .ok ((i, v) :: ps)
      | .error e => .error e

/-- `list({i: xs[i] for i in idx}.values())`: evaluate `xs[i]` for each `i` in
`idx`, build the dict, and take its values in order. -/
def pyDictGather {α : Type} (idx : List Nat) (xs : List α) :
    Except PyError (List α) :=
  match pyLookups idx xs with
  | .error e => .error e
  | .ok ps => .ok ((pyDict ps).map Prod.snd)

namespace DataGenerator

/-- `DataGenerator.shuffle_samples`.  `random.shuffle(self._index)` is
modelled by passing in the freshly shuffled index list `newIndex` (a
permutation of the previous `_index`); the three series are then rebuilt by
the dict-comprehension idiom of the source. -/
def shuffle_samples (g : DataGenerator) (newIndex : List Nat) :
    Except PyError DataGenerator :=
  match pyDictGather newIndex g.labels with
  | .error e => .error e
  | .ok newLabels =>
    match pyDictGather newIndex g.features with
    | .error e => .error e
    | .ok newFeatures =>
      match g.labels_2 with
      | none =>
        .ok { g with _index := newIndex, labels := newLabels, features := newFeatures }
      | some l2 =>
        match pyDictGather newIndex l2 with
        | .error e => .error e
        | .ok newL2 =>
          .ok { g with _index := newIndex, labels := newLabels,
                       features := newFeatures, labels_2 := some newL2 }

/-- The length invariant of `DataGenerator` stated by the spec, together with
the fact that `_index` stays a permutation of `0..n_samples-1`. -/
def goodState (g : DataGenerator) : Prop :=
  g.features.length = g.n_samples ∧
  g.labels.length = g.n_samples ∧
  (match g.labels_2 with
   | none => True
   | some l2 => l2.length = g.n_samples) ∧
  g._index.Perm (List.range g.n_samples)

end DataGenerator

/-- Python's `round` to `d = 2` decimal places on an exact rational: the
nearest multiple of `1/100`, ties to even. -/
def pyRound2 (q : ℚ) : ℚ :=
  let y : ℚ := 100 * q
  let f : ℤ := ⌊y⌋
  let r : ℚ := y - (f : ℚ)
  let i : ℤ :=
    if r < 1/2 then f
    else if 1/2 < r then f + 1
    else if f % 2 = 0 then f else f + 1
  (i : ℚ) / 100

/-- `utils.MetricAccumulator` state: four metric series and their four
gradient series, plus the `gradient_batch` window size. -/
structure MetricAccumulator where
  training_data_loss : List ℚ
  training_data_acc : List ℚ
  testing_data_loss : List ℚ
  testing_data_acc : List ℚ
  training_data_loss_grads : List ℚ
  training_data_acc_grads : List ℚ
  testing_data_loss_grads : List ℚ
  testing_data_acc_grads : List ℚ
  gradient_batch : Nat
deriving Repr, DecidableEq

namespace MetricAccumulator

/-- `MetricAccumulator.__init__`. -/
def mk0 (gradient_batch : Nat) : MetricAccumulator :=
  { training_data_loss := []
    training_data_acc := []
    testing_data_loss := []
    testing_data_acc := []
    training_data_loss_grads := []
    training_data_acc_grads := []
    testing_data_loss_grads := []
    testing_data_acc_grads := []
    gradient_batch := gradient_batch }

/-- The Python slice `x[-batch:]`: the whole list when `batch = 0` (since
`-0` is `0`), otherwise the last `batch` elements. -/
def pySliceLast (batch : Nat) (x : List ℚ) : List ℚ :=
  if batch = 0 then x else x.drop (x.length - batch)

/-- `MetricAccumulator.metric_gradient`: `(data[-1] - data[0]) / len(data)`
rounded to two decimals, over `data = x[-batch:]`; indexing an empty window
raises IndexError. -/
def metric_gradient (batch : Nat) (x : List ℚ) : Except PyError ℚ :=
  match (pySliceLast batch x).getLast?, (pySliceLast batch x).head? with
  | some dLast, some d0 =>
    .ok (pyRound2 ((dLast - d0) / ((pySliceLast batch x).length : ℚ)))
  | _, _ => .error .indexError

/-- `MetricAccumulator.add` followed by the `_all_grads` it invokes: append
the four epoch results, then append the gradient of each updated series. -/
def add (m : MetricAccumulator) (epoch_results : ℚ × ℚ × ℚ × ℚ) :
    Except PyError MetricAccumulator :=
  let m1 := { m with
    training_data_loss := m.training_data_loss ++ [epoch_results.1]
    training_data_acc := m.training_data_acc ++ [epoch_results.2.1]
    testing_data_loss := m.testing_data_loss ++ [epoch_results.2.2.1]
    testing_data_acc := m.testing_data_acc ++ [epoch_results.2.2.2] }
  match metric_gradient m1.gradient_batch m1.training_data_loss,
        metric_gradient m1.gradient_batch m1.training_data_acc,
        metric_gradient m1.gradient_batch m1.testing_data_loss,
        metric_gradient m1.gradient_batch m1.testing_data_acc with
  | .ok g1, .ok g2, .ok g3, .ok g4 =>
    .ok { m1 with
      training_data_loss_grads := m1.training_data_loss_grads ++ [g1]
      training_data_acc_grads := m1.training_data_acc_grads ++ [g2]
      testing_data_loss_grads := m1.testing_data_loss_grads ++ [g3]
      testing_data_acc_grads := m1.testing_data_acc_grads ++ [g4] }
  | _, _, _, _ => .error .indexError

/-- The trailing-window slope relation claimed for each gradient series:
`grads'` extends `grads` with the slope of the window made of the last
`min batch (length metric)` entries of `metric` — the change of the metric
between the window's first and last entries, divided by the number of epochs
in the window, rounded to two decimals. -/
def trailingSlopeSpec (batch : Nat) (metric grads grads' : List ℚ) : Prop :=
  grads' = grads ++ [pyRound2
    (((metric.drop (metric.length - min batch metric.length)).getLast?.getD 0 -
      (metric.drop (metric.length - min batch metric.length)).head?.getD 0) /
     ((min batch metric.length : ℕ) : ℚ))]

/-- A sequence of `add` calls, in order. -/
def runAdds (m : MetricAccumulator) :
    List (ℚ × ℚ × ℚ × ℚ) → Except PyError MetricAccumulator
  | [] => .ok m
  | r :: rs =>
    match m.add r with
    | .ok m' => runAdds m' rs
    | .error e => .error e

end MetricAccumulator

/-- `utils.R_or_S`: convert log2-transformed MIC values to 0 (sensitive) or 1
(resistant) against a breakpoint `boundary`. -/
def R_or_S (MIC : List ℤ) (boundary : ℚ) : List ℕ :=
  MIC.map fun i => if (2 : ℚ) ^ i ≤ boundary then 0 else 1

/-! ## `model.py`: the forward passes of `VanillaNN` and `MICPredictor`

The tensor computations are modelled over exact rationals.  A sample enters
`forward` as a column vector of `n_feat` entries (`x.transpose(0, 1)` turns it
into the row that `nn.Linear` consumes, pure shape plumbing), so the embedding
works directly with the vector of entries.  `F.dropout(·, p, training=True)`
zeroes a random subset of entries and rescales the survivors by `1/(1-p)`;
the random keep-mask is passed in explicitly. -/

/-- `nn.Linear(len W, len b)` applied to a vector: each output entry is the
dot product of a weight row with the input plus the bias entry. -/
def linearLayer (W : List (List ℚ)) (b : List ℚ) (x : List ℚ) : List ℚ :=
  List.zipWith (fun wRow bi => (List.zipWith (· * ·) wRow x).sum + bi) W b

/-- `F.leaky_relu` on a scalar, with torch's default negative slope `0.01`. -/
def leakyRelu (a : ℚ) : ℚ :=
  if a < 0 then (1 / 100) * a else a

/-- `F.leaky_relu` applied elementwise to a vector. -/
def leakyReluVec (x : List ℚ) : List ℚ :=
  x.map leakyRelu

/-- `F.dropout(x, p, training=True)` under a given keep-mask: kept entries are
rescaled by `1/(1-p)`, dropped entries become `0`. -/
def dropoutLayer (p : ℚ) (mask : List Bool) (x : List ℚ) : List ℚ :=
  List.zipWith (fun keep a => if keep then a / (1 - p) else 0) mask x

/-- Parameters of `model.VanillaNN` (also the base of `MICPredictor`): three
`nn.Linear` layers and the dropout probability. -/
structure VanillaNN where
  W1 : List (List ℚ)
  b1 : List ℚ
  W2 : List (List ℚ)
  b2 : List ℚ
  W3 : List (List ℚ)
  b3 : List ℚ
  dropout : ℚ
deriving Repr, DecidableEq

/-- `VanillaNN.forward`: `leaky_relu(linear1)`, dropout, `leaky_relu(linear2)`,
dropout, `leaky_relu(linear3)`.  The source's final `[0][0]` indexing picks the
scalar out of the `1 × out_dim` result; the embedding keeps the whole output
vector (`leaky_relu` commutes with the indexing since it is elementwise). -/
def VanillaNN.forward (nn : VanillaNN) (m1 m2 : List Bool) (x : List ℚ) :
    List ℚ :=
  let x1 := dropoutLayer nn.dropout m1 (leakyReluVec (linearLayer nn.W1 nn.b1 x))
  let x2 := dropoutLayer nn.dropout m2 (leakyReluVec (linearLayer nn.W2 nn.b2 x1))
  leakyReluVec (linearLayer nn.W3 nn.b3 x2)

/-- `MICPredictor.forward`: the same pipeline, returning the output together
with the hidden activation after the second dropout. -/
def MICPredictor.forward (nn : VanillaNN) (m1 m2 : List Bool) (x : List ℚ) :
    List ℚ × List ℚ :=
  let x1 := dropoutLayer nn.dropout m1 (leakyReluVec (linearLayer nn.W1 nn.b1 x))
  let x2 := dropoutLayer nn.dropout m2 (leakyReluVec (linearLayer nn.W2 nn.b2 x1))
  (leakyReluVec (linearLayer nn.W3 nn.b3 x2), x2)

/-- Modelled from the spec: "Model definitions — two stacked linear layers
with nonlinearity and dropout" — a forward pass made of exactly two blocks,
each a linear layer followed by `leaky_relu` and dropout. -/
def specTwoLayerForward (W1 : List (List ℚ)) (b1 : List ℚ)
    (W2 : List (List ℚ)) (b2 : List ℚ) (p : ℚ) (m1 m2 : List Bool)
    (x : List ℚ) : List ℚ :=
  dropoutLayer p m2 (leakyReluVec (linearLayer W2 b2
    (dropoutLayer p m1 (leakyReluVec (linearLayer W1 b1 x)))))


/-! ## Helper lemmas -/

lemma get?_eq_some_getD {α : Type} (xs : List α) (i : Nat) (d : α)
    (h : i < xs.length) : xs.get? i = some (xs.getD i d) := by
  cases hx : xs.get? i with
  | none => exact absurd (List.get?_eq_none.1 hx) (by omega)
  | some a => rw [List.getD_eq_get?, hx]; rfl

lemma pyDictInsert_of_not_mem {α : Type} (k : Nat) (v : α) :
    ∀ acc : List (Nat × α), k ∉ acc.map Prod.fst →
      pyDictInsert k v acc = acc ++ [(k, v)] := by
  intro acc
  induction acc with
  | nil => intro _; rfl
  | cons kv rest ih =>
    intro h
    simp only [List.map_cons, List.mem_cons] at h
    push_neg at h
    have hk : ¬(kv.1 = k) := fun he => h.1 he.symm
    simp only [pyDictInsert, if_neg hk, ih h.2, List.cons_append]

lemma pyDict_foldl_of_nodup {α : Type} :
    ∀ pairs acc : List (Nat × α),
      (acc.map Prod.fst ++ pairs.map Prod.fst).Nodup →
      pairs.foldl (fun d p => pyDictInsert p.1 p.2 d) acc = acc ++ pairs := by
  intro pairs
  induction pairs with
  | nil => intro acc _; simp
  | cons p rest ih =>
    intro acc h
    have hne : p.1 ∉ acc.map Prod.fst := fun hmem =>
      (List.nodup_append.1 h).2.2 hmem (List.mem_cons_self _ _)
    have h' : ((acc ++ [p]).map Prod.fst ++ rest.map Prod.fst).Nodup := by
      simpa [List.map_append, List.append_assoc] using h
    simp only [List.foldl_cons, pyDictInsert_of_not_mem p.1 p.2 acc hne, ih _ h']
    simp

lemma pyDict_of_nodup {α : Type} (pairs : List (Nat × α))
    (h : (pairs.map Prod.fst).Nodup) : pyDict pairs = pairs := by
  simpa using pyDict_foldl_of_nodup pairs [] (by simpa using h)

lemma pyLookups_ok {α : Type} (xs : List α) (d : α) :
    ∀ idx : List Nat, (∀ i ∈ idx, i < xs.length) →
      pyLookups idx xs = .ok (idx.map fun i => (i, xs.getD i d)) := by
  intro idx
  induction idx with
  | nil => intro _; rfl
  | cons i rest ih =>
    intro h
    have hi : i < xs.length := h i (by simp)
    simp only [pyLookups, get?_eq_some_getD xs i d hi,
      ih fun j hj => h j (by simp [hj]), List.map_cons]

lemma pyDictGather_ok {α : Type} (xs : List α) (d : α) (idx : List Nat)
    (hmem : ∀ i ∈ idx, i < xs.length) (hnd : idx.Nodup) :
    pyDictGather idx xs = .ok (idx.map fun i => xs.getD i d) := by
  have hkeys_eq : (idx.map fun i => (i, xs.getD i d)).map Prod.fst = idx := by
    simp [List.map_map, Function.comp_def]
  simp only [pyDictGather, pyLookups_ok xs d idx hmem]
  rw [pyDict_of_nodup _ (by rw [hkeys_eq]; exact hnd)]
  simp [List.map_map, Function.comp_def]

namespace DataGenerator

lemma _parse_features_length (gn : Bool) :
    ∀ features fs : List Tensor, _parse_features features gn = .ok fs →
      fs.length = features.length := by
  intro features
  induction features with
  | nil => intro fs h; simp only [_parse_features] at h; injection h with h; simp [← h]
  | cons t rest ih =>
    intro fs h
    simp only [_parse_features] at h
    cases hp : parseOne gn t with
    | error e => rw [hp] at h; exact Except.noConfusion h
    | ok t' =>
      rw [hp] at h
      cases hr : _parse_features rest gn with
      | error e => rw [hr] at h; exact Except.noConfusion h
      | ok rest' =>
        rw [hr] at h
        injection h with h
        rw [← h, List.length_cons, List.length_cons, ih rest' hr]

lemma _parse_features_get? (gn : Bool) :
    ∀ features fs : List Tensor, _parse_features features gn = .ok fs →
      ∀ (i : Nat) (t : Tensor), features.get? i = some t →
        ∃ t', parseOne gn t = .ok t' ∧ fs.get? i = some t' := by
  intro features
  induction features with
  | nil => intro fs _ i t ht; simp at ht
  | cons u rest ih =>
    intro fs h i t ht
    simp only [_parse_features] at h
    cases hp : parseOne gn u with
    | error e => rw [hp] at h; exact Except.noConfusion h
    | ok u' =>
      rw [hp] at h
      cases hr : _parse_features rest gn with
      | error e => rw [hr] at h; exact Except.noConfusion h
      | ok rest' =>
        rw [hr] at h
        injection h with h
        cases i with
        | zero =>
          injection ht with ht
          exact ⟨u', by rw [← ht]; exact hp, by rw [← h]; rfl⟩
        | succ j =>
          obtain ⟨t', hpt, hget⟩ := ih rest' hr j t ht
          exact ⟨t', hpt, by rw [← h]; exact hget⟩

end DataGenerator

namespace DataGenerator

lemma min?_of_ne_nil (labels : List ℚ) (h : labels ≠ []) :
    ∃ m, (labels.map fun l => |l|).min? = some m := by
  cases labels with
  | nil => exact absurd rfl h
  | cons a t => exact ⟨_, List.min?_cons⟩

lemma init_ok (features : List Tensor) (labels : List ℚ)
    (labels_2 : Option (List ℤ)) (ar gn pc : Bool) (g : DataGenerator)
    (h : init features labels labels_2 ar gn pc = .ok g) :
    g.n = 0 ∧
    g.n_samples = labels.length ∧
    0 < labels.length ∧
    features.length = labels.length ∧
    g.auto_reset_generator = ar ∧
    g.labels_2 = labels_2 ∧
    g._index = List.range labels.length ∧
    g.labels = labels.map (fun l => l + ((labels.map fun l => |l|).min?.getD 0)) ∧
    (pc = true → g.features = features) ∧
    (pc = false → _parse_features features gn = .ok g.features) ∧
    (∀ f0, g.features.head? = some f0 → g.n_nodes = f0.shape0) ∧
    goodState g := by
  unfold init at h
  split at h
  case isFalse hlen => exact Except.noConfusion h
  case isTrue hlen =>
  split at h
  · exact Except.noConfusion h
  rename_i feats hparse
  split at h
  · exact Except.noConfusion h
  rename_i m hmin
  split at h
  · exact Except.noConfusion h
  rename_i f0 hhead
  have hlabne : labels ≠ [] := by
    intro hnil
    rw [hnil] at hmin
    simp at hmin
  have hlabpos : 0 < labels.length := List.length_pos.2 hlabne
  have hpcT : pc = true → features = feats := by
    intro hpc
    rw [hpc] at hparse
    simpa using hparse
  have hpcF : pc = false → _parse_features features gn = .ok feats := by
    intro hpc
    rw [hpc] at hparse
    simpa using hparse
  have hfeatlen : feats.length = labels.length := by
    by_cases hpc : pc = true
    · rw [← hpcT hpc]; exact hlen
    · have hpc' : pc = false := by revert hpc; cases pc <;> simp
      rw [_parse_features_length gn features feats (hpcF hpc')]; exact hlen
  split at h
  · -- labels_2 = none
    rename_i hl2
    simp only [Except.ok.injEq] at h
    subst h
    refine ⟨rfl, rfl, hlabpos, hlen, rfl, rfl, rfl, by rw [hmin]; rfl,
      fun hpc => (hpcT hpc).symm, hpcF, ?_, ?_⟩
    · intro f0' h'
      rw [hhead] at h'
      injection h' with h'
      rw [← h']
    · exact ⟨hfeatlen, by simp, trivial, List.Perm.refl _⟩
  · -- labels_2 = some l2
    rename_i l2 hl2
    split at h
    case isFalse hl2len => exact Except.noConfusion h
    case isTrue hl2len =>
    simp only [Except.ok.injEq] at h
    subst h
    refine ⟨rfl, rfl, hlabpos, hlen, rfl, rfl, rfl, by rw [hmin]; rfl,
      fun hpc => (hpcT hpc).symm, hpcF, ?_, ?_⟩
    · intro f0' h'
      rw [hhead] at h'
      injection h' with h'
      rw [← h']
    · exact ⟨hfeatlen, by simp, hl2len, List.Perm.refl _⟩

end DataGenerator

namespace DataGenerator

lemma sampleAt_ok (g : DataGenerator) (hg : goodState g) (i : Nat)
    (hi : i < g.n_samples) :
    g.sampleAt i = .ok (g.features.getD i (.vec []), g.labels.getD i 0,
      g.labels_2.map fun l2 => l2.getD i 0) := by
  obtain ⟨hf, hl, hl2, -⟩ := hg
  cases h2 : g.labels_2 with
  | none =>
    simp only [sampleAt, get?_eq_some_getD g.features i (.vec []) (by omega),
      get?_eq_some_getD g.labels i 0 (by omega), h2, Option.map_none']
  | some l2 =>
    have hl2' : l2.length = g.n_samples := by rw [h2] at hl2; exact hl2
    simp only [sampleAt, get?_eq_some_getD g.features i (.vec []) (by omega),
      get?_eq_some_getD g.labels i 0 (by omega), h2,
      get?_eq_some_getD l2 i 0 (by omega), Option.map_some']

lemma goodState_set_n (g : DataGenerator) (m : Nat) (hg : goodState g) :
    goodState { g with n := m } := hg

lemma next_sample_auto (g : DataGenerator) (hg : goodState g)
    (har : g.auto_reset_generator = true) (hn : g.n < g.n_samples) :
    g.next_sample = .ok
      ((g.features.getD g.n (.vec []), g.labels.getD g.n 0,
        g.labels_2.map fun l2 => l2.getD g.n 0),
       { g with n := (g.n + 1) % g.n_samples }) := by
  have hs : sampleAt { g with n := g.n + 1 } (g.n + 1 - 1) =
      .ok (g.features.getD g.n (.vec []), g.labels.getD g.n 0,
        g.labels_2.map fun l2 => l2.getD g.n 0) :=
    sampleAt_ok { g with n := g.n + 1 } hg g.n hn
  unfold next_sample
  by_cases hN : g.n + 1 = g.n_samples
  · rw [if_pos ⟨hN, har⟩, hs]
    have hmod : (g.n + 1) % g.n_samples = 0 := by rw [hN]; exact Nat.mod_self _
    rw [hmod]
    rfl
  · rw [if_neg fun hc => hN hc.1, hs]
    have hmod : (g.n + 1) % g.n_samples = g.n + 1 := Nat.mod_eq_of_lt (by omega)
    rw [hmod]

lemma next_sample_noauto_ok (g : DataGenerator) (hg : goodState g)
    (har : g.auto_reset_generator = false) (hn : g.n < g.n_samples) :
    g.next_sample = .ok
      ((g.features.getD g.n (.vec []), g.labels.getD g.n 0,
        g.labels_2.map fun l2 => l2.getD g.n 0),
       { g with n := g.n + 1 }) := by
  have hs : sampleAt { g with n := g.n + 1 } (g.n + 1 - 1) =
      .ok (g.features.getD g.n (.vec []), g.labels.getD g.n 0,
        g.labels_2.map fun l2 => l2.getD g.n 0) :=
    sampleAt_ok { g with n := g.n + 1 } hg g.n hn
  unfold next_sample
  rw [if_neg fun hc => by rw [har] at hc; exact Bool.noConfusion hc.2, hs]

lemma next_sample_noauto_err (g : DataGenerator) (hg : goodState g)
    (har : g.auto_reset_generator = false) (hn : g.n_samples ≤ g.n) :
    g.next_sample = .error .indexError := by
  have hnone : g.features.get? (g.n + 1 - 1) = none :=
    List.get?_eq_none.2 (by rw [hg.1]; omega)
  unfold next_sample
  rw [if_neg fun hc => by rw [har] at hc; exact Bool.noConfusion hc.2]
  unfold sampleAt
  rw [show ({ g with n := g.n + 1 } : DataGenerator).features = g.features from rfl,
    hnone]

lemma runSamples_succ_ok (g : DataGenerator) (k : Nat) (ss : List Sample)
    (g' : DataGenerator) (h : g.runSamples k = .ok (ss, g')) :
    g.runSamples (k + 1) =
      (match g'.next_sample with
       | .ok (s, g'') => .ok (ss ++ [s], g'')
       | .error e => .error e) := by
  rw [runSamples, h]

lemma runSamples_auto (g : DataGenerator) (hg : goodState g)
    (har : g.auto_reset_generator = true) (hn0 : g.n = 0)
    (hpos : 0 < g.n_samples) :
    ∀ k, g.runSamples k = .ok
      ((List.range k).map fun j =>
        (g.features.getD (j % g.n_samples) (.vec []),
         g.labels.getD (j % g.n_samples) 0,
         g.labels_2.map fun l2 => l2.getD (j % g.n_samples) 0),
       { g with n := k % g.n_samples }) := by
  intro k
  induction k with
  | zero =>
    have hg0 : ({ g with n := 0 % g.n_samples } : DataGenerator) = g := by
      rw [Nat.zero_mod, ← hn0]
    rw [hg0]
    simp [runSamples]
  | succ k ih =>
    rw [List.range_succ, List.map_append, ← Nat.mod_add_mod]
    rw [runSamples_succ_ok g k _ _ ih,
      next_sample_auto { g with n := k % g.n_samples } hg har
        (Nat.mod_lt _ hpos)]
    rfl

lemma runSamples_noauto_ok (g : DataGenerator) (hg : goodState g)
    (har : g.auto_reset_generator = false) (hn0 : g.n = 0) :
    ∀ k, k ≤ g.n_samples → g.runSamples k = .ok
      ((List.range k).map fun j =>
        (g.features.getD j (.vec []), g.labels.getD j 0,
         g.labels_2.map fun l2 => l2.getD j 0),
       { g with n := k }) := by
  intro k
  induction k with
  | zero =>
    intro _
    have hg0 : ({ g with n := 0 } : DataGenerator) = g := by rw [← hn0]
    rw [hg0]
    simp [runSamples]
  | succ k ih =>
    intro hk
    rw [List.range_succ, List.map_append]
    rw [runSamples_succ_ok g k _ _ (ih (by omega)),
      next_sample_noauto_ok { g with n := k } hg har
        (show k < g.n_samples by omega)]
    rfl

lemma runSamples_error_succ (g : DataGenerator) (k : Nat) (e : PyError)
    (h : g.runSamples k = .error e) : g.runSamples (k + 1) = .error e := by
  rw [runSamples, h]

lemma runSamples_noauto_err (g : DataGenerator) (hg : goodState g)
    (har : g.auto_reset_generator = false) (hn0 : g.n = 0) :
    ∀ k, g.n_samples < k → g.runSamples k = .error .indexError := by
  intro k
  induction k with
  | zero => intro hk; exact absurd hk (by omega)
  | succ k ih =>
    intro hk
    by_cases hke : g.n_samples < k
    · exact runSamples_error_succ g k _ (ih hke)
    · have hkN : k = g.n_samples := by omega
      rw [runSamples_succ_ok g k _ _ (runSamples_noauto_ok g hg har hn0 k (by omega)),
        next_sample_noauto_err { g with n := k } hg har
          (show g.n_samples ≤ k by omega)]

end DataGenerator

namespace MetricAccumulator

lemma pySliceLast_ne_nil (batch : Nat) (x : List ℚ) (hx : x ≠ []) :
    pySliceLast batch x ≠ [] := by
  unfold pySliceLast
  split
  · exact hx
  · rename_i hb
    intro hcon
    have hlen := congrArg List.length hcon
    rw [List.length_drop] at hlen
    have hpos : 0 < x.length := List.length_pos.2 hx
    simp only [List.length_nil] at hlen
    omega

lemma metric_gradient_ok (batch : Nat) (x : List ℚ) (hx : x ≠ []) :
    metric_gradient batch x =
      .ok (pyRound2 (((pySliceLast batch x).getLast?.getD 0 -
        (pySliceLast batch x).head?.getD 0) /
        ((pySliceLast batch x).length : ℚ))) := by
  have hne := pySliceLast_ne_nil batch x hx
  unfold metric_gradient
  rw [List.getLast?_eq_getLast _ hne, List.head?_eq_head hne]
  rfl

lemma add_ok (m : MetricAccumulator) (r : ℚ × ℚ × ℚ × ℚ) :
    m.add r = .ok
      { training_data_loss := m.training_data_loss ++ [r.1]
        training_data_acc := m.training_data_acc ++ [r.2.1]
        testing_data_loss := m.testing_data_loss ++ [r.2.2.1]
        testing_data_acc := m.testing_data_acc ++ [r.2.2.2]
        training_data_loss_grads := m.training_data_loss_grads ++
          [(metric_gradient m.gradient_batch (m.training_data_loss ++ [r.1])).toOption.getD 0]
        training_data_acc_grads := m.training_data_acc_grads ++
          [(metric_gradient m.gradient_batch (m.training_data_acc ++ [r.2.1])).toOption.getD 0]
        testing_data_loss_grads := m.testing_data_loss_grads ++
          [(metric_gradient m.gradient_batch (m.testing_data_loss ++ [r.2.2.1])).toOption.getD 0]
        testing_data_acc_grads := m.testing_data_acc_grads ++
          [(metric_gradient m.gradient_batch (m.testing_data_acc ++ [r.2.2.2])).toOption.getD 0]
        gradient_batch := m.gradient_batch } := by
  rw [metric_gradient_ok m.gradient_batch (m.training_data_loss ++ [r.1]) (by simp),
    metric_gradient_ok m.gradient_batch (m.training_data_acc ++ [r.2.1]) (by simp),
    metric_gradient_ok m.gradient_batch (m.testing_data_loss ++ [r.2.2.1]) (by simp),
    metric_gradient_ok m.gradient_batch (m.testing_data_acc ++ [r.2.2.2]) (by simp)]
  simp only [add]
  rw [metric_gradient_ok m.gradient_batch (m.training_data_loss ++ [r.1]) (by simp),
    metric_gradient_ok m.gradient_batch (m.training_data_acc ++ [r.2.1]) (by simp),
    metric_gradient_ok m.gradient_batch (m.testing_data_loss ++ [r.2.2.1]) (by simp),
    metric_gradient_ok m.gradient_batch (m.testing_data_acc ++ [r.2.2.2]) (by simp)]
  rfl

end MetricAccumulator

namespace MetricAccumulator

lemma metric_gradient_spec (batch : Nat) (x : List ℚ) (hb : 1 ≤ batch)
    (hx : x ≠ []) :
    metric_gradient batch x = .ok (pyRound2
      (((x.drop (x.length - min batch x.length)).getLast?.getD 0 -
        (x.drop (x.length - min batch x.length)).head?.getD 0) /
       ((min batch x.length : ℕ) : ℚ))) := by
  have hpos : 0 < x.length := List.length_pos.2 hx
  have hslice : pySliceLast batch x = x.drop (x.length - min batch x.length) := by
    unfold pySliceLast
    rw [if_neg (by omega)]
    congr 1
    omega
  have hlen : (x.drop (x.length - min batch x.length)).length =
      min batch x.length := by
    rw [List.length_drop]
    omega
  rw [metric_gradient_ok batch x hx, hslice, hlen]

lemma runAdds_lengths :
    ∀ (rs : List (ℚ × ℚ × ℚ × ℚ)) (m m' : MetricAccumulator),
      runAdds m rs = .ok m' →
      m'.training_data_loss.length = m.training_data_loss.length + rs.length ∧
      m'.training_data_acc.length = m.training_data_acc.length + rs.length ∧
      m'.testing_data_loss.length = m.testing_data_loss.length + rs.length ∧
      m'.testing_data_acc.length = m.testing_data_acc.length + rs.length ∧
      m'.training_data_loss_grads.length =
        m.training_data_loss_grads.length + rs.length ∧
      m'.training_data_acc_grads.length =
        m.training_data_acc_grads.length + rs.length ∧
      m'.testing_data_loss_grads.length =
        m.testing_data_loss_grads.length + rs.length ∧
      m'.testing_data_acc_grads.length =
        m.testing_data_acc_grads.length + rs.length := by
  intro rs
  induction rs with
  | nil =>
    intro m m' h
    simp only [runAdds, Except.ok.injEq] at h
    subst h
    simp
  | cons r rs ih =>
    intro m m' h
    simp only [runAdds, add_ok m r] at h
    obtain ⟨h1, h2, h3, h4, h5, h6, h7, h8⟩ := ih _ m' h
    refine ⟨?_, ?_, ?_, ?_, ?_, ?_, ?_, ?_⟩ <;>
      simp only [List.length_append, List.length_cons, List.length_nil]
        at h1 h2 h3 h4 h5 h6 h7 h8 ⊢ <;>
      omega

end MetricAccumulator

namespace DataGenerator

lemma shuffle_ok (g : DataGenerator) (newIndex : List Nat) (hg : goodState g)
    (hperm : newIndex.Perm g._index) :
    g.shuffle_samples newIndex = .ok
      { g with _index := newIndex,
               labels := newIndex.map fun i => g.labels.getD i 0,
               features := newIndex.map fun i => g.features.getD i (.vec []),
               labels_2 := g.labels_2.map fun l2 =>
                 newIndex.map fun i => l2.getD i 0 } := by
  have hpr : newIndex.Perm (List.range g.n_samples) := hperm.trans hg.2.2.2
  have hnd : newIndex.Nodup := hpr.nodup_iff.2 (List.nodup_range _)
  have hmemN : ∀ i ∈ newIndex, i < g.n_samples := fun i hi =>
    List.mem_range.1 (hpr.mem_iff.1 hi)
  cases h2 : g.labels_2 with
  | none =>
    simp only [shuffle_samples, h2,
      pyDictGather_ok g.labels 0 newIndex
        (fun i hi => by rw [hg.2.1]; exact hmemN i hi) hnd,
      pyDictGather_ok g.features (.vec []) newIndex
        (fun i hi => by rw [hg.1]; exact hmemN i hi) hnd,
      Option.map_none']
  | some l2 =>
    have hl2len : l2.length = g.n_samples := by
      have hx := hg.2.2.1
      rw [h2] at hx
      exact hx
    simp only [shuffle_samples, h2,
      pyDictGather_ok g.labels 0 newIndex
        (fun i hi => by rw [hg.2.1]; exact hmemN i hi) hnd,
      pyDictGather_ok g.features (.vec []) newIndex
        (fun i hi => by rw [hg.1]; exact hmemN i hi) hnd,
      pyDictGather_ok l2 0 newIndex
        (fun i hi => by rw [hl2len]; exact hmemN i hi) hnd,
      Option.map_some']

lemma next_sample_preserves (g : DataGenerator) (s : Sample)
    (g' : DataGenerator) (hg : goodState g) (h : g.next_sample = .ok (s, g')) :
    goodState g' := by
  unfold next_sample at h
  split at h
  · split at h
    · rename_i s' hs
      simp only [Except.ok.injEq, Prod.mk.injEq] at h
      obtain ⟨-, hgeq⟩ := h
      subst hgeq
      exact hg
    · exact Except.noConfusion h
  · split at h
    · rename_i s' hs
      simp only [Except.ok.injEq, Prod.mk.injEq] at h
      obtain ⟨-, hgeq⟩ := h
      subst hgeq
      exact hg
    · exact Except.noConfusion h

end DataGenerator

/-! ## Claim theorems -/

/-- C1: for a `DataGenerator` built with `auto_reset_generator = True`, the
k-th consecutive `next_sample` call returns the sample at index `(k-1) mod
n_samples` — so calls `1..n_samples` return samples `0..n_samples-1`, the
cursor is back at `0` after the `n_samples`-th call, and further calls repeat
the same sequence cyclically. -/
theorem C1_auto_reset_cycles (features : List Tensor) (labels : List ℚ)
    (labels_2 : Option (List ℤ)) (gn pc : Bool) (g : DataGenerator)
    (hg : DataGenerator.init features labels labels_2 true gn pc = .ok g)
    (k : Nat) :
    ∃ ss g', g.runSamples k = .ok (ss, g') ∧ ss.length = k ∧
      g'.n = k % g.n_samples ∧
      ∀ j, j < k → ss.get? j = some
        (g.features.getD (j % g.n_samples) (.vec []),
         g.labels.getD (j % g.n_samples) 0,
         g.labels_2.map fun l2 => l2.getD (j % g.n_samples) 0) := by
  obtain ⟨hn, hns, hpos, -, har, -, -, -, -, -, -, hinv⟩ :=
    DataGenerator.init_ok features labels labels_2 true gn pc g hg
  refine ⟨_, _, DataGenerator.runSamples_auto g hinv har hn (by omega) k,
    by simp, rfl, ?_⟩
  intro j hj
  rw [List.get?_map, List.get?_range hj]
  rfl

/-- C10: for a `DataGenerator` built with `auto_reset_generator = False`, the
cursor is never reset: the first `n_samples` calls return samples
`0..n_samples-1`, and `next_sample` raises IndexError exactly when more than
`n_samples` calls have been made. -/
theorem C10_no_auto_reset_raises (features : List Tensor) (labels : List ℚ)
    (labels_2 : Option (List ℤ)) (gn pc : Bool) (g : DataGenerator)
    (hg : DataGenerator.init features labels labels_2 false gn pc = .ok g)
    (k : Nat) :
    (k ≤ g.n_samples → ∃ ss g', g.runSamples k = .ok (ss, g') ∧
      ss.length = k ∧ g'.n = k ∧
      ∀ j, j < k → ss.get? j = some
        (g.features.getD j (.vec []), g.labels.getD j 0,
         g.labels_2.map fun l2 => l2.getD j 0)) ∧
    (g.n_samples < k → g.runSamples k = .error .indexError) ∧
    ((∃ e, g.runSamples k = .error e) ↔ g.n_samples < k) := by
  obtain ⟨hn, hns, hpos, -, har, -, -, -, -, -, -, hinv⟩ :=
    DataGenerator.init_ok features labels labels_2 false gn pc g hg
  have hok := DataGenerator.runSamples_noauto_ok g hinv har hn
  have herr := DataGenerator.runSamples_noauto_err g hinv har hn
  refine ⟨?_, herr k, ?_, ?_⟩
  · intro hk
    refine ⟨_, _, hok k hk, by simp, rfl, ?_⟩
    intro j hj
    rw [List.get?_map, List.get?_range hj]
    rfl
  · rintro ⟨e, he⟩
    by_contra hnk
    rw [hok k (by omega)] at he
    exact Except.noConfusion he
  · intro hk
    exact ⟨_, herr k hk⟩

/-- C3: `shuffle_samples` applies one common permutation (the freshly
shuffled `_index`) to all parallel series, preserving the pairing of each
feature with its label and secondary label. -/
theorem C3_shuffle_common_permutation (g : DataGenerator) (newIndex : List Nat)
    (hg : DataGenerator.goodState g) (hperm : newIndex.Perm g._index) :
    ∃ g', g.shuffle_samples newIndex = .ok g' ∧
      g'._index = newIndex ∧
      newIndex.Perm (List.range g.n_samples) ∧
      g'.labels.length = g.n_samples ∧
      g'.features.length = g.n_samples ∧
      (∀ j, j < g.n_samples →
        g'.labels.get? j = some (g.labels.getD (newIndex.getD j 0) 0) ∧
        g'.features.get? j =
          some (g.features.getD (newIndex.getD j 0) (.vec []))) ∧
      (∀ l2, g.labels_2 = some l2 →
        ∃ l2', g'.labels_2 = some l2' ∧ l2'.length = g.n_samples ∧
          ∀ j, j < g.n_samples →
            l2'.get? j = some (l2.getD (newIndex.getD j 0) 0)) := by
  have hpr : newIndex.Perm (List.range g.n_samples) := hperm.trans hg.2.2.2
  have hlen : newIndex.length = g.n_samples := by simpa using hpr.length_eq
  refine ⟨_, DataGenerator.shuffle_ok g newIndex hg hperm, rfl, hpr,
    by simp [hlen], by simp [hlen], ?_, ?_⟩
  · intro j hj
    have hjlen : j < newIndex.length := by omega
    constructor
    · show (newIndex.map fun i => g.labels.getD i 0).get? j = _
      rw [List.get?_map, get?_eq_some_getD newIndex j 0 hjlen]
      rfl
    · show (newIndex.map fun i => g.features.getD i (.vec [])).get? j = _
      rw [List.get?_map, get?_eq_some_getD newIndex j 0 hjlen]
      rfl
  · intro l2 h2
    refine ⟨newIndex.map fun i => l2.getD i 0, ?_, by simp [hlen], ?_⟩
    · show (g.labels_2.map fun l2 => newIndex.map fun i => l2.getD i 0) = _
      rw [h2]
      rfl
    · intro j hj
      rw [List.get?_map, get?_eq_some_getD newIndex j 0 (by omega)]
      rfl

/-- C2 (amended): `__init__` raises AssertionError whenever
`len(features) ≠ len(labels)`; when a construction that would succeed without
`labels_2` is given a `labels_2` with `len(labels_2) ≠ len(labels)`, it raises
AssertionError as well; the length invariant holds after every successful
construction and is preserved by `next_sample`, `reset_generator` and
`shuffle_samples`.  (As stated, the claim fails only when an earlier runtime
error — `min` of an empty label tensor or an ill-shaped feature tensor —
preempts the `labels_2` assertion; see the counterexample.) -/
theorem C2_init_asserts_and_invariant :
    (∀ (features : List Tensor) (labels : List ℚ) (labels_2 : Option (List ℤ))
       (ar gn pc : Bool), features.length ≠ labels.length →
       DataGenerator.init features labels labels_2 ar gn pc =
         .error .assertionError) ∧
    (∀ (features : List Tensor) (labels : List ℚ) (l2 : List ℤ)
       (ar gn pc : Bool) (g : DataGenerator),
       DataGenerator.init features labels none ar gn pc = .ok g →
       l2.length ≠ labels.length →
       DataGenerator.init features labels (some l2) ar gn pc =
         .error .assertionError) ∧
    (∀ (features : List Tensor) (labels : List ℚ) (labels_2 : Option (List ℤ))
       (ar gn pc : Bool) (g : DataGenerator),
       DataGenerator.init features labels labels_2 ar gn pc = .ok g →
       DataGenerator.goodState g) ∧
    (∀ (g : DataGenerator) (s : Sample) (g' : DataGenerator),
       DataGenerator.goodState g → g.next_sample = .ok (s, g') →
       DataGenerator.goodState g') ∧
    (∀ g : DataGenerator, DataGenerator.goodState g →
       DataGenerator.goodState g.reset_generator) ∧
    (∀ (g : DataGenerator) (idx : List Nat) (g' : DataGenerator),
       DataGenerator.goodState g → idx.Perm g._index →
       g.shuffle_samples idx = .ok g' → DataGenerator.goodState g') := by
  refine ⟨?_, ?_, ?_, ?_, ?_, ?_⟩
  · intro features labels labels_2 ar gn pc h
    unfold DataGenerator.init
    rw [if_neg h]
  · intro features labels l2 ar gn pc g h hne
    obtain ⟨-, -, hpos, hlen, -, -, -, -, hpcT, hpcF, -, hinv⟩ :=
      DataGenerator.init_ok features labels none ar gn pc g h
    have hparse : (if pc = true then Except.ok features
        else DataGenerator._parse_features features gn) = .ok g.features := by
      cases pc with
      | false => simpa using hpcF rfl
      | true => simp [hpcT rfl]
    obtain ⟨mv, hm⟩ := DataGenerator.min?_of_ne_nil labels (List.length_pos.mp hpos)
    have hfpos : g.features ≠ [] := by
      have : g.features.length = labels.length := by
        rw [hinv.1, (DataGenerator.init_ok features labels none ar gn pc g h).2.1]
      intro hnil
      rw [hnil] at this
      simp at this
      omega
    obtain ⟨f0, hf0⟩ : ∃ f0, g.features.head? = some f0 :=
      ⟨_, List.head?_eq_head hfpos⟩
    unfold DataGenerator.init
    rw [if_pos hlen]
    simp only [hparse, hm, hf0]
    rw [if_neg hne]
  · intro features labels labels_2 ar gn pc g h
    exact (DataGenerator.init_ok features labels labels_2 ar gn pc g h).2.2.2.2.2.2.2.2.2.2.2
  · exact fun g s g' hg h => DataGenerator.next_sample_preserves g s g' hg h
  · exact fun g hg => hg
  · intro g idx g' hg hperm h
    have hpr : idx.Perm (List.range g.n_samples) := hperm.trans hg.2.2.2
    have hlen : idx.length = g.n_samples := by simpa using hpr.length_eq
    rw [DataGenerator.shuffle_ok g idx hg hperm] at h
    simp only [Except.ok.injEq] at h
    subst h
    refine ⟨by simp [hlen], by simp [hlen], ?_, hpr⟩
    cases hl2 : g.labels_2 with
    | none => simp [hl2]
    | some l2 => simp [hl2, hlen]

/-- C2 counterexample: with empty features and labels and a non-empty
`labels_2`, the lengths disagree (`len(labels_2) = 1 ≠ 0 = len(labels)`) but
construction fails with the error of `min` on an empty sequence, not with the
AssertionError the claim requires. -/
theorem C2_counterexample :
    DataGenerator.init [] [] (some [0]) true true false = .error .valueError ∧
    Except.error PyError.valueError ≠
      (Except.error PyError.assertionError : Except PyError DataGenerator) := by
  exact ⟨rfl, fun h => PyError.noConfusion (Except.error.inj h)⟩

/-- C4: every `MetricAccumulator.add` call appends exactly one element to each
of the eight series and never mutates or removes an existing entry; after `N`
`add` calls from a fresh accumulator all eight lists have length `N`. -/
theorem C4_add_appends_one_to_each_series :
    (∀ (m : MetricAccumulator) (r : ℚ × ℚ × ℚ × ℚ), ∃ m',
       m.add r = .ok m' ∧
       m'.training_data_loss = m.training_data_loss ++ [r.1] ∧
       m'.training_data_acc = m.training_data_acc ++ [r.2.1] ∧
       m'.testing_data_loss = m.testing_data_loss ++ [r.2.2.1] ∧
       m'.testing_data_acc = m.testing_data_acc ++ [r.2.2.2] ∧
       (∃ g1, m'.training_data_loss_grads = m.training_data_loss_grads ++ [g1]) ∧
       (∃ g2, m'.training_data_acc_grads = m.training_data_acc_grads ++ [g2]) ∧
       (∃ g3, m'.testing_data_loss_grads = m.testing_data_loss_grads ++ [g3]) ∧
       (∃ g4, m'.testing_data_acc_grads = m.testing_data_acc_grads ++ [g4])) ∧
    (∀ (batch : Nat) (rs : List (ℚ × ℚ × ℚ × ℚ)) (m : MetricAccumulator),
       MetricAccumulator.runAdds (.mk0 batch) rs = .ok m →
       m.training_data_loss.length = rs.length ∧
       m.training_data_acc.length = rs.length ∧
       m.testing_data_loss.length = rs.length ∧
       m.testing_data_acc.length = rs.length ∧
       m.training_data_loss_grads.length = rs.length ∧
       m.training_data_acc_grads.length = rs.length ∧
       m.testing_data_loss_grads.length = rs.length ∧
       m.testing_data_acc_grads.length = rs.length) := by
  constructor
  · intro m r
    exact ⟨_, MetricAccumulator.add_ok m r, rfl, rfl, rfl, rfl,
      ⟨_, rfl⟩, ⟨_, rfl⟩, ⟨_, rfl⟩, ⟨_, rfl⟩⟩
  · intro batch rs m h
    have hl := MetricAccumulator.runAdds_lengths rs (.mk0 batch) m h
    simpa [MetricAccumulator.mk0] using hl

/-- C5: each value appended to a `*_grads` series by `add` is the
trailing-window slope of the corresponding updated metric series — over the
window of the last `gradient_batch` recorded epochs (all of them when fewer
have been recorded), the change of the metric between the window's first and
last entries divided by the number of epochs in the window, rounded to two
decimals. -/
theorem C5_grads_are_trailing_window_slopes (m : MetricAccumulator)
    (r : ℚ × ℚ × ℚ × ℚ) (m' : MetricAccumulator)
    (hb : 1 ≤ m.gradient_batch) (h : m.add r = .ok m') :
    MetricAccumulator.trailingSlopeSpec m.gradient_batch m'.training_data_loss
      m.training_data_loss_grads m'.training_data_loss_grads ∧
    MetricAccumulator.trailingSlopeSpec m.gradient_batch m'.training_data_acc
      m.training_data_acc_grads m'.training_data_acc_grads ∧
    MetricAccumulator.trailingSlopeSpec m.gradient_batch m'.testing_data_loss
      m.testing_data_loss_grads m'.testing_data_loss_grads ∧
    MetricAccumulator.trailingSlopeSpec m.gradient_batch m'.testing_data_acc
      m.testing_data_acc_grads m'.testing_data_acc_grads := by
  rw [MetricAccumulator.add_ok m r] at h
  simp only [Except.ok.injEq] at h
  subst h
  refine ⟨?_, ?_, ?_, ?_⟩
  · unfold MetricAccumulator.trailingSlopeSpec
    dsimp only
    rw [MetricAccumulator.metric_gradient_spec m.gradient_batch
      (m.training_data_loss ++ [r.1]) hb (by simp)]
    rfl
  · unfold MetricAccumulator.trailingSlopeSpec
    dsimp only
    rw [MetricAccumulator.metric_gradient_spec m.gradient_batch
      (m.training_data_acc ++ [r.2.1]) hb (by simp)]
    rfl
  · unfold MetricAccumulator.trailingSlopeSpec
    dsimp only
    rw [MetricAccumulator.metric_gradient_spec m.gradient_batch
      (m.testing_data_loss ++ [r.2.2.1]) hb (by simp)]
    rfl
  · unfold MetricAccumulator.trailingSlopeSpec
    dsimp only
    rw [MetricAccumulator.metric_gradient_spec m.gradient_batch
      (m.testing_data_acc ++ [r.2.2.2]) hb (by simp)]
    rfl

/-- C6 counterexample: with a third linear layer that doubles its input, the
actual forward pass differs from a pass made of only the two claimed
linear-nonlinearity-dropout blocks, so the forward pass is not composed of
two stacked linear layers each followed by a nonlinearity and dropout. -/
theorem C6_counterexample :
    VanillaNN.forward ⟨[[1]], [0], [[1]], [0], [[2]], [0], 0⟩ [true] [true] [1] ≠
      specTwoLayerForward [[1]] [0] [[1]] [0] 0 [true] [true] [1] := by
  have h1 : VanillaNN.forward ⟨[[1]], [0], [[1]], [0], [[2]], [0], 0⟩
      [true] [true] [1] = [2] := by
    norm_num [VanillaNN.forward, linearLayer, leakyReluVec, leakyRelu,
      dropoutLayer]
  have h2 : specTwoLayerForward [[1]] [0] [[1]] [0] 0 [true] [true] [1] = [1] := by
    norm_num [specTwoLayerForward, linearLayer, leakyReluVec, leakyRelu,
      dropoutLayer]
  rw [h1, h2]
  intro hcon
  have := List.head_eq_of_cons_eq hcon
  norm_num at this

/-- C6 (amended): the forward pass of each model is two stacked blocks of a
linear layer followed by `leaky_relu` and dropout, followed by a third linear
output layer with `leaky_relu` but no dropout; `MICPredictor` additionally
returns the activation after the second block. -/
theorem C6_two_blocks_then_linear_output (nn : VanillaNN) (m1 m2 : List Bool)
    (x : List ℚ) :
    VanillaNN.forward nn m1 m2 x =
      leakyReluVec (linearLayer nn.W3 nn.b3
        (specTwoLayerForward nn.W1 nn.b1 nn.W2 nn.b2 nn.dropout m1 m2 x)) ∧
    MICPredictor.forward nn m1 m2 x =
      (leakyReluVec (linearLayer nn.W3 nn.b3
        (specTwoLayerForward nn.W1 nn.b1 nn.W2 nn.b2 nn.dropout m1 m2 x)),
       specTwoLayerForward nn.W1 nn.b1 nn.W2 nn.b2 nn.dropout m1 m2 x) :=
  ⟨rfl, rfl⟩

/-- C7: `R_or_S` maps a list of log2-transformed MIC values to a list of the
same length whose i-th entry is 0 when `2 ** MIC[i] <= boundary` and 1
otherwise. -/
theorem C7_R_or_S_thresholds (MIC : List ℤ) (boundary : ℚ) :
    (R_or_S MIC boundary).length = MIC.length ∧
    ∀ (i : Nat) (v : ℤ), MIC.get? i = some v →
      (R_or_S MIC boundary).get? i =
        some (if (2 : ℚ) ^ v ≤ boundary then 0 else 1) := by
  constructor
  · simp [R_or_S]
  · intro i v hv
    rw [R_or_S, List.get?_map, hv]
    rfl

/-- C8: with `pre_convolved=False` and `global_node=True` every stored feature
is the input vector with the constant `0.5` appended as one final entry,
reshaped into a column, and `n_nodes` is the input length plus one; with
`global_node=False` the values are stored unchanged apart from the column
reshape; with `pre_convolved=True` the features are stored exactly as given. -/
theorem C8_global_node_augmentation (features : List Tensor) (labels : List ℚ)
    (labels_2 : Option (List ℤ)) (ar : Bool) (g : DataGenerator) :
    (DataGenerator.init features labels labels_2 ar true false = .ok g →
       (∀ (i : Nat) (v : List ℚ), features.get? i = some (.vec v) →
          g.features.get? i = some (.mat ((v ++ [1/2]).map fun a => [a]))) ∧
       (∀ v0 : List ℚ, features.get? 0 = some (.vec v0) →
          g.n_nodes = v0.length + 1)) ∧
    (DataGenerator.init features labels labels_2 ar false false = .ok g →
       ∀ (i : Nat) (v : List ℚ), features.get? i = some (.vec v) →
          g.features.get? i = some (.mat (v.map fun a => [a]))) ∧
    (∀ gn : Bool, DataGenerator.init features labels labels_2 ar gn true = .ok g →
       g.features = features) := by
  refine ⟨?_, ?_, ?_⟩
  · intro h
    obtain ⟨-, -, -, -, -, -, -, -, -, hpcF, hnodes, -⟩ :=
      DataGenerator.init_ok features labels labels_2 ar true false g h
    have hparse := hpcF rfl
    have hstep : ∀ (i : Nat) (v : List ℚ), features.get? i = some (.vec v) →
        g.features.get? i = some (.mat ((v ++ [1/2]).map fun a => [a])) := by
      intro i v hv
      obtain ⟨t', hpt, hget⟩ :=
        DataGenerator._parse_features_get? true features g.features hparse i _ hv
      have h0 : DataGenerator.parseOne true (Tensor.vec v) =
          .ok (.mat ((v ++ [1/2]).map fun a => [a])) := rfl
      rw [h0] at hpt
      injection hpt with hpt
      rw [hget, hpt]
    refine ⟨hstep, ?_⟩
    intro v0 h0
    have hget0 := hstep 0 v0 h0
    have hh : g.features.head? = some (.mat ((v0 ++ [1/2]).map fun a => [a])) := by
      have he : g.features.head? = g.features.get? 0 := by
        cases g.features <;> rfl
      rw [he, hget0]
    rw [hnodes _ hh]
    simp [Tensor.shape0]
  · intro h i v hv
    obtain ⟨-, -, -, -, -, -, -, -, -, hpcF, -, -⟩ :=
      DataGenerator.init_ok features labels labels_2 ar false false g h
    obtain ⟨t', hpt, hget⟩ :=
      DataGenerator._parse_features_get? false features g.features (hpcF rfl) i _ hv
    have h0 : DataGenerator.parseOne false (Tensor.vec v) =
        .ok (.mat (v.map fun a => [a])) := rfl
    rw [h0] at hpt
    injection hpt with hpt
    rw [hget, hpt]
  · intro gn h
    obtain ⟨-, -, -, -, -, -, -, -, hpcT, -, -, -⟩ :=
      DataGenerator.init_ok features labels labels_2 ar gn true g h
    exact hpcT rfl

/-- C9: `__init__` stores `labels + min(abs(labels))` rather than the given
labels, and this shift does not guarantee non-negativity: for the label
tensor `[-5, 1]` the stored labels are `[-4, 2]`, which still contain a
negative entry. -/
theorem C9_labels_shifted_not_nonneg :
    (∀ (features : List Tensor) (labels : List ℚ) (labels_2 : Option (List ℤ))
       (ar gn pc : Bool) (g : DataGenerator),
       DataGenerator.init features labels labels_2 ar gn pc = .ok g →
       ∃ m, (labels.map fun l => |l|).min? = some m ∧
         g.labels = labels.map fun l => l + m) ∧
    ((DataGenerator.init [.vec [1], .vec [1]] [-5, 1] none true true false).map
       (fun g => g.labels) = .ok [-4, 2] ∧ ((-4 : ℚ) < 0)) := by
  constructor
  · intro features labels labels_2 ar gn pc g h
    obtain ⟨-, -, hpos, -, -, -, -, hlab, -, -, -, -⟩ :=
      DataGenerator.init_ok features labels labels_2 ar gn pc g h
    obtain ⟨mv, hm⟩ :=
      DataGenerator.min?_of_ne_nil labels (List.length_pos.mp hpos)
    refine ⟨mv, hm, ?_⟩
    rw [hlab, hm]
    rfl
  · refine ⟨?_, by norm_num⟩
    norm_num [DataGenerator.init, DataGenerator._parse_features,
      DataGenerator.parseOne, List.min?_cons, min_def, List.range_succ,
      Tensor.shape0, Except.map]

/-! ## Witnesses -/

/-- Witness for C1: a two-sample generator with auto-reset serves samples
`0, 1, 0` over three calls and leaves the cursor at `1`. -/
theorem C1_witness :
    ∃ ss g', DataGenerator.runSamples
        { features := [.mat [[1], [1/2]], .mat [[2], [1/2]]],
          labels := [6, 7], n_nodes := 2, n_samples := 2, n := 0,
          _index := [0, 1], auto_reset_generator := true,
          labels_2 := none } 3 = .ok (ss, g') ∧
      ss.length = 3 ∧ g'.n = 3 % 2 ∧
      ∀ j, j < 3 → ss.get? j = some
        ([Tensor.mat [[1], [1/2]], Tensor.mat [[2], [1/2]]].getD (j % 2)
          (.vec []),
         [(6 : ℚ), 7].getD (j % 2) 0, none) :=
  C1_auto_reset_cycles [.vec [1], .vec [2]] [3, 4] none true false
    { features := [.mat [[1], [1/2]], .mat [[2], [1/2]]],
      labels := [6, 7], n_nodes := 2, n_samples := 2, n := 0,
      _index := [0, 1], auto_reset_generator := true, labels_2 := none }
    (by norm_num [DataGenerator.init, DataGenerator._parse_features,
      DataGenerator.parseOne, List.min?_cons, min_def, List.range_succ,
      Tensor.shape0]) 3

/-- Witness for C10: a two-sample generator without auto-reset fails with
IndexError on the third call. -/
theorem C10_witness :
    DataGenerator.runSamples
      { features := [.mat [[1], [1/2]], .mat [[2], [1/2]]],
        labels := [6, 7], n_nodes := 2, n_samples := 2, n := 0,
        _index := [0, 1], auto_reset_generator := false,
        labels_2 := none } 3 = .error .indexError :=
  (C10_no_auto_reset_raises [.vec [1], .vec [2]] [3, 4] none true false
    { features := [.mat [[1], [1/2]], .mat [[2], [1/2]]],
      labels := [6, 7], n_nodes := 2, n_samples := 2, n := 0,
      _index := [0, 1], auto_reset_generator := false, labels_2 := none }
    (by norm_num [DataGenerator.init, DataGenerator._parse_features,
      DataGenerator.parseOne, List.min?_cons, min_def, List.range_succ,
      Tensor.shape0]) 3).2.1 (by decide)

/-- Witness for C3: shuffling a three-sample generator with secondary labels
by the permutation `[2, 0, 1]`. -/
theorem C3_witness :
    ∃ g', DataGenerator.shuffle_samples
        { features := [.vec [1], .vec [2], .vec [3]], labels := [5, 6, 7],
          n_nodes := 1, n_samples := 3, n := 0, _index := [0, 1, 2],
          auto_reset_generator := true, labels_2 := some [7, 8, 9] }
        [2, 0, 1] = .ok g' ∧
      g'._index = [2, 0, 1] ∧
      ([2, 0, 1] : List Nat).Perm (List.range 3) ∧
      g'.labels.length = 3 ∧ g'.features.length = 3 ∧
      (∀ j, j < 3 →
        g'.labels.get? j =
          some ([(5 : ℚ), 6, 7].getD (([2, 0, 1] : List Nat).getD j 0) 0) ∧
        g'.features.get? j =
          some (([Tensor.vec [1], .vec [2], .vec [3]]).getD
            (([2, 0, 1] : List Nat).getD j 0) (.vec []))) ∧
      (∀ l2, (some [7, 8, 9] : Option (List ℤ)) = some l2 →
        ∃ l2', g'.labels_2 = some l2' ∧ l2'.length = 3 ∧
          ∀ j, j < 3 →
            l2'.get? j = some (l2.getD (([2, 0, 1] : List Nat).getD j 0) 0)) :=
  C3_shuffle_common_permutation
    { features := [.vec [1], .vec [2], .vec [3]], labels := [5, 6, 7],
      n_nodes := 1, n_samples := 3, n := 0, _index := [0, 1, 2],
      auto_reset_generator := true, labels_2 := some [7, 8, 9] }
    [2, 0, 1] ⟨rfl, rfl, rfl, by decide⟩ (by decide)

/-- Witness for C2: mismatched feature/label lengths raise AssertionError, and
a successfully constructed generator satisfies the length invariant. -/
theorem C2_witness :
    DataGenerator.init [Tensor.vec [1]] [] none true true false =
      .error .assertionError ∧
    DataGenerator.goodState
      { features := [.mat [[1], [1/2]], .mat [[2], [1/2]]],
        labels := [6, 7], n_nodes := 2, n_samples := 2, n := 0,
        _index := [0, 1], auto_reset_generator := true, labels_2 := none } :=
  ⟨C2_init_asserts_and_invariant.1 [Tensor.vec [1]] [] none true true false
      (by decide),
   C2_init_asserts_and_invariant.2.2.1 [.vec [1], .vec [2]] [3, 4] none true
      true false
      { features := [.mat [[1], [1/2]], .mat [[2], [1/2]]],
        labels := [6, 7], n_nodes := 2, n_samples := 2, n := 0,
        _index := [0, 1], auto_reset_generator := true, labels_2 := none }
      (by norm_num [DataGenerator.init, DataGenerator._parse_features,
        DataGenerator.parseOne, List.min?_cons, min_def, List.range_succ,
        Tensor.shape0])⟩

/-- Witness for C4: one `add` call on a fresh accumulator yields the state
with all eight series of length one. -/
theorem C4_witness :
    MetricAccumulator.runAdds (.mk0 2) [(1, 2, 3, 4)] = .ok
      { training_data_loss := [1], training_data_acc := [2],
        testing_data_loss := [3], testing_data_acc := [4],
        training_data_loss_grads := [0], training_data_acc_grads := [0],
        testing_data_loss_grads := [0], testing_data_acc_grads := [0],
        gradient_batch := 2 } ∧
    (([1] : List ℚ).length = 1 ∧ ([2] : List ℚ).length = 1 ∧
     ([3] : List ℚ).length = 1 ∧ ([4] : List ℚ).length = 1 ∧
     ([0] : List ℚ).length = 1 ∧ ([0] : List ℚ).length = 1 ∧
     ([0] : List ℚ).length = 1 ∧ ([0] : List ℚ).length = 1) := by
  have h : MetricAccumulator.runAdds (.mk0 2) [(1, 2, 3, 4)] = .ok
      { training_data_loss := [1], training_data_acc := [2],
        testing_data_loss := [3], testing_data_acc := [4],
        training_data_loss_grads := [0], training_data_acc_grads := [0],
        testing_data_loss_grads := [0], testing_data_acc_grads := [0],
        gradient_batch := 2 } := by
    norm_num [MetricAccumulator.runAdds, MetricAccumulator.add,
      MetricAccumulator.metric_gradient, MetricAccumulator.pySliceLast,
      MetricAccumulator.mk0, pyRound2]
  exact ⟨h, C4_add_appends_one_to_each_series.2 2 [(1, 2, 3, 4)] _ h⟩

/-- Witness for C5: the gradient values appended by the first `add` call on a
fresh accumulator with `gradient_batch = 2` satisfy the trailing-window slope
relation. -/
theorem C5_witness :
    MetricAccumulator.trailingSlopeSpec 2 [1] [] [0] ∧
    MetricAccumulator.trailingSlopeSpec 2 [2] [] [0] ∧
    MetricAccumulator.trailingSlopeSpec 2 [3] [] [0] ∧
    MetricAccumulator.trailingSlopeSpec 2 [4] [] [0] := by
  have h : MetricAccumulator.add (.mk0 2) (1, 2, 3, 4) = .ok
      { training_data_loss := [1], training_data_acc := [2],
        testing_data_loss := [3], testing_data_acc := [4],
        training_data_loss_grads := [0], training_data_acc_grads := [0],
        testing_data_loss_grads := [0], testing_data_acc_grads := [0],
        gradient_batch := 2 } := by
    norm_num [MetricAccumulator.add, MetricAccumulator.metric_gradient,
      MetricAccumulator.pySliceLast, MetricAccumulator.mk0, pyRound2]
  exact C5_grads_are_trailing_window_slopes (.mk0 2) (1, 2, 3, 4) _
    (by decide) h

/-- Witness for C7: with boundary `0.125`, log2-MIC values `[0, -3, 1]` are
classified as `[1, 0, 1]`; in particular index 1 (MIC `2 ** -3 = 0.125`) is
sensitive. -/
theorem C7_witness :
    (R_or_S [0, -3, 1] (1/8)).length = ([0, -3, 1] : List ℤ).length ∧
    (R_or_S [0, -3, 1] (1/8)).get? 1 = some 0 := by
  refine ⟨(C7_R_or_S_thresholds [0, -3, 1] (1/8)).1, ?_⟩
  have h := (C7_R_or_S_thresholds [0, -3, 1] (1/8)).2 1 (-3) rfl
  rw [h]
  norm_num

/-- Witness for C8: the single feature vector `[1, 2]` is stored as the
column `[[1], [2], [0.5]]` and `n_nodes` is `3`. -/
theorem C8_witness :
    ([Tensor.mat [[1], [2], [1/2]]] : List Tensor).get? 0 =
      some (.mat ((([1, 2] : List ℚ) ++ [1/2]).map fun a => [a])) ∧
    (3 : Nat) = ([1, 2] : List ℚ).length + 1 := by
  have h := (C8_global_node_augmentation [.vec [1, 2]] [3] none true
    { features := [.mat [[1], [2], [1/2]]], labels := [6], n_nodes := 3,
      n_samples := 1, n := 0, _index := [0], auto_reset_generator := true,
      labels_2 := none }).1
    (by norm_num [DataGenerator.init, DataGenerator._parse_features,
      DataGenerator.parseOne, List.min?_cons, min_def, List.range_succ,
      Tensor.shape0])
  exact ⟨h.1 0 [1, 2] rfl, h.2 [1, 2] rfl⟩

/-- Witness for C9: the generator built over labels `[-5, 1]` stores
`[-5, 1] + 1 = [-4, 2]`. -/
theorem C9_witness :
    ∃ m, (([(-5 : ℚ), 1]).map fun l => |l|).min? = some m ∧
      ([(-4 : ℚ), 2] : List ℚ) = [(-5 : ℚ), 1].map fun l => l + m :=
  C9_labels_shifted_not_nonneg.1 [.vec [1], .vec [1]] [-5, 1] none true true
    false
    { features := [.mat [[1], [1/2]], .mat [[1], [1/2]]], labels := [-4, 2],
      n_nodes := 2, n_samples := 2, n := 0, _index := [0, 1],
      auto_reset_generator := true, labels_2 := none }
    (by norm_num [DataGenerator.init, DataGenerator._parse_features,
      DataGenerator.parseOne, List.min?_cons, min_def, List.range_succ,
      Tensor.shape0])
